import Mathlib

/-!
# A model of hyperion.ng's PriorityMuxer

This file is a shallow embedding of `src/libsrc/hyperion/PriorityMuxer.cpp`.
The muxer keeps an associative table of `InputInfo` records keyed by priority
(a QMap, modelled as an association list kept in ascending key order), three
scalars (`_currentPriority`, `_manualSelectedPriority`,
`_sourceAutoSelectEnabled`), and emits Qt signals, modelled as an explicit
event list returned by each operation.

Modelling conventions:
* `QDateTime::currentMSecsSinceEpoch()` becomes an explicit `now : Int`
  parameter; a public call and the synchronous sweep it performs see the
  same `now`.
* machine integers (`int`, `int64_t`) become `Int`; the narrowing
  conversions to `uint8_t` / `quint8` at call boundaries become
  `Int.emod · 256`.
* only the `emit` statements executed by the muxer's own methods are
  recorded in the trace; the timer machinery (`_timer`, `_blockTimer`,
  `_updateTimer`) and the signal-to-signal forwarding set up in the
  constructor are real-time behaviour outside this model (the forwarded
  signals are none of the events the theorems below talk about).
* the class declaration (`PriorityMuxer.h`) is not part of the sources;
  where its content matters it is modelled from the spec and marked so.
-/

/-- Component identifiers recognized by the muxer (spec §3; `utils/Components.h`
is not among the sources, the constructors are the ones the .cpp file names
plus the remaining kinds listed by the spec). -/
inductive Components where
  | COMP_COLOR
  | COMP_EFFECT
  | COMP_IMAGE
  | COMP_GRABBER
  | COMP_V4L
  | COMP_BOBLIGHTSERVER
  | COMP_FLATBUFSERVER
  | COMP_PROTOSERVER
deriving DecidableEq, Repr

/-- One RGB triple (utils ColorRgb). -/
structure ColorRgb where
  red : Nat
  green : Nat
  blue : Nat
deriving DecidableEq, Repr

instance : Inhabited ColorRgb := ⟨⟨0, 0, 0⟩⟩

/-- An image payload; the muxer treats it as an opaque blob carrying its
dimensions (spec §1, §3), so only the dimensions are modelled. -/
structure ImageRgb where
  width : Nat
  height : Nat
deriving DecidableEq, Repr

instance : Inhabited ImageRgb := ⟨⟨0, 0⟩⟩

/-- Modelled from the spec: `InputInfo` is declared in `PriorityMuxer.h`,
which is not among the sources; the fields are the ones spec §3 lists (and
the .cpp file reads/writes). A default-constructed record has an empty
color vector and a default image. -/
structure InputInfo where
  priority : Int
  timeoutTime_ms : Int
  componentId : Components
  origin : String
  owner : String
  smooth_cfg : Nat
  ledColors : List ColorRgb
  image : ImageRgb
deriving DecidableEq, Repr

instance : Inhabited InputInfo :=
  ⟨{ priority := 0
     timeoutTime_ms := 0
     componentId := Components.COMP_COLOR
     origin := ""
     owner := ""
     smooth_cfg := 0
     ledColors := []
     image := default }⟩

/-- The Qt signals the muxer emits directly (`PriorityMuxer.cpp`). -/
inductive Event where
  | priorityChanged (priority : Int) (present : Bool)
  | prioritiesChanged
  | activeStateChanged (priority : Int) (active : Bool)
  | visiblePriorityChanged (priority : Int)
  | autoSelectChanged (enabled : Bool)
  | signalTimeTrigger
deriving DecidableEq, Repr

/-- The input table: a QMap from priority to record, as an association
list in ascending key order. -/
abbrev InputTable := List (Int × InputInfo)

/-- QMap::find / value lookup. -/
def tblFind? (t : InputTable) (k : Int) : Option InputInfo :=
  match t with
  | [] => none
  | e :: rest => if e.1 = k then some e.2 else tblFind? rest k

/-- QMap::contains. -/
def tblContains (t : InputTable) (k : Int) : Bool :=
  (tblFind? t k).isSome

/-- QMap insertion (`_activeInputs[k] = v`): replaces the entry at `k`, or
inserts it in key order. -/
def tblInsert (t : InputTable) (k : Int) (v : InputInfo) : InputTable :=
  match t with
  | [] => [(k, v)]
  | e :: rest =>
    if k < e.1 then (k, v) :: e :: rest
    else if k = e.1 then (k, v) :: rest
    else e :: tblInsert rest k v

/-- QMap::remove. -/
def tblRemove (t : InputTable) (k : Int) : InputTable :=
  match t with
  | [] => []
  | e :: rest => if e.1 = k then tblRemove rest k else e :: tblRemove rest k

/-- QMap::keys (snapshot of the key set, in table order). -/
def tblKeys (t : InputTable) : List Int :=
  t.map Prod.fst

/-- `PriorityMuxer::LOWEST_PRIORITY = std::numeric_limits<uint8_t>::max()`. -/
def LOWEST_PRIORITY : Int := 255

/-- The muxer's mutable members (`_activeInputs`, `_currentPriority`,
`_manualSelectedPriority`, `_sourceAutoSelectEnabled`), plus the
construction-time `_lowestPriorityInfo` used by `clearAll(true)` and
`getInputInfo`. -/
structure MuxerState where
  currentPriority : Int
  manualSelectedPriority : Int
  activeInputs : InputTable
  sourceAutoSelectEnabled : Bool
  lowestPriorityInfo : InputInfo
deriving DecidableEq, Repr

/-- The background record built by the constructor: priority `LOWEST`,
`timeoutTime_ms = -1`, a black frame of `ledCount` LEDs, component COLOR,
origin "System". -/
def lowestInfo (ledCount : Nat) : InputInfo :=
  { priority := LOWEST_PRIORITY
    timeoutTime_ms := -1
    componentId := Components.COMP_COLOR
    origin := "System"
    owner := ""
    smooth_cfg := 0
    ledColors := List.replicate ledCount ⟨0, 0, 0⟩
    image := default }

/-- `PriorityMuxer::PriorityMuxer(int ledCount)`: current priority LOWEST,
manual selection 256, the table holding only the background record,
auto-select enabled. -/
def initState (ledCount : Nat) : MuxerState :=
  { currentPriority := LOWEST_PRIORITY
    manualSelectedPriority := 256
    activeInputs := [(LOWEST_PRIORITY, lowestInfo ledCount)]
    sourceAutoSelectEnabled := true
    lowestPriorityInfo := lowestInfo ledCount }

/-- A record's deadline has passed: `timeoutTime_ms > 0 && timeoutTime_ms <= now`
(the expiry test of `setCurrentTime`). -/
def expired (now : Int) (info : InputInfo) : Bool :=
  decide (info.timeoutTime_ms > 0) && decide (info.timeoutTime_ms ≤ now)

/-- The timeout stored by `setInput` / `setInputImage`:
`if (timeout_ms > 0) timeout_ms = now + timeout_ms` — positive values become
absolute deadlines, everything else passes through. -/
def calcTimeout (timeout_ms now : Int) : Int :=
  if timeout_ms > 0 then now + timeout_ms else timeout_ms

/-- The iterator loop of `setCurrentTime` (lines 285-307): walks the table,
erases expired records (emitting `priorityChanged(p,false)` then
`prioritiesChanged`, with the int priority narrowed to `quint8`), folds the
minimum over surviving records with `timeoutTime_ms > -100` into the
accumulator, and fires `signalTimeTrigger` for surviving COLOR/EFFECT
records with a positive timeout and priority below 254. Returns
(survivors, accumulated newPriority, emitted events). -/
def sweepLoop (now : Int) : InputTable → Int → InputTable × Int × List Event
  | [], newPriority => ([], newPriority, [])
  | (key, info) :: rest, newPriority =>
    if expired now info then
      let r := sweepLoop now rest newPriority
      (r.1, r.2.1,
        Event.priorityChanged (info.priority.emod 256) false :: Event.prioritiesChanged :: r.2.2)
    else
      let np1 := if info.timeoutTime_ms > -100 then min newPriority info.priority else newPriority
      let trig : List Event :=
        if info.priority < 254 && decide (info.timeoutTime_ms > 0) &&
           (info.componentId = Components.COMP_EFFECT || info.componentId = Components.COMP_COLOR)
        then [Event.signalTimeTrigger] else []
      let r := sweepLoop now rest np1
      ((key, info) :: r.1, r.2.1, trig ++ r.2.2)

/-- The initial value of `newPriority` in `setCurrentTime` (line 283):
0 if the table currently has a key 0, else LOWEST — note this is checked
before the expiry pass and regardless of record activity. -/
def sweepInit (s : MuxerState) : Int :=
  if tblContains s.activeInputs 0 then 0 else LOWEST_PRIORITY

/-- The priority `setCurrentTime` publishes: the loop's minimum, overridden
by `_manualSelectedPriority` when auto-select is off and the manual priority
is still present after the expiry pass (lines 308-321). -/
def sweepNewPriority (s : MuxerState) (now : Int) : Int :=
  if !s.sourceAutoSelectEnabled &&
     tblContains (sweepLoop now s.activeInputs (sweepInit s)).1 s.manualSelectedPriority
  then s.manualSelectedPriority
  else (sweepLoop now s.activeInputs (sweepInit s)).2.1

/-- The auto-select flag after `setCurrentTime`: flipped back to true (via
`setSourceAutoSelectEnabled(true, false)`, inlined here) when the manual
priority vanished while auto-select was off. -/
def sweepAutoSelect (s : MuxerState) (now : Int) : Bool :=
  if !s.sourceAutoSelectEnabled &&
     !tblContains (sweepLoop now s.activeInputs (sweepInit s)).1 s.manualSelectedPriority
  then true
  else s.sourceAutoSelectEnabled

/-- `PriorityMuxer::setCurrentTime` (the sweep): expiry pass, manual
re-validation, then apply `newPriority` and — only on change — emit
`visiblePriorityChanged(new)` then `prioritiesChanged` (lines 279-335). -/
def setCurrentTime (s : MuxerState) (now : Int) : MuxerState × List Event :=
  ({ s with
      activeInputs := (sweepLoop now s.activeInputs (sweepInit s)).1
      sourceAutoSelectEnabled := sweepAutoSelect s now
      currentPriority := sweepNewPriority s now },
   (sweepLoop now s.activeInputs (sweepInit s)).2.2
   ++ (if !s.sourceAutoSelectEnabled &&
          !tblContains (sweepLoop now s.activeInputs (sweepInit s)).1 s.manualSelectedPriority
       then [Event.autoSelectChanged true] else [])
   ++ (if s.currentPriority ≠ sweepNewPriority s now
       then [Event.visiblePriorityChanged (sweepNewPriority s now), Event.prioritiesChanged]
       else []))

/-- `PriorityMuxer::setSourceAutoSelectEnabled(enable, update)`: no-op
returning false when the flag already has the requested value; refuses to
disable when the manual priority is absent; otherwise flips the flag, runs
the sweep when `update` is set, then emits `autoSelectChanged(enable)` and
returns true. -/
def setSourceAutoSelectEnabled (s : MuxerState) (enable update : Bool) (now : Int) :
    MuxerState × List Event × Bool :=
  if s.sourceAutoSelectEnabled ≠ enable then
    if !enable && !tblContains s.activeInputs s.manualSelectedPriority then
      (s, [], false)
    else
      let s1 : MuxerState := { s with sourceAutoSelectEnabled := enable }
      let r := if update then setCurrentTime s1 now else (s1, [])
      (r.1, r.2 ++ [Event.autoSelectChanged enable], true)
  else (s, [], false)

/-- `PriorityMuxer::setPriority(uint8_t priority)`: when present, store it
as the manual selection and call `setSourceAutoSelectEnabled(false)` (the
`update` argument defaults to true — modelled from the spec §4.3/§4.6, the
header carrying the default is not among the sources). -/
def setPriority (s : MuxerState) (priority : Int) (now : Int) :
    MuxerState × List Event × Bool :=
  if tblContains s.activeInputs (priority.emod 256) then
    let s1 : MuxerState := { s with manualSelectedPriority := priority.emod 256 }
    let r := setSourceAutoSelectEnabled s1 false true now
    (r.1, r.2.1, true)
  else (s, [], false)

/-- `PriorityMuxer::registerInput`: fresh priorities get a record with
`timeoutTime_ms = -100` (default-constructed payload) and the events
`priorityChanged(p,true)`, `prioritiesChanged`; existing priorities have
their metadata overwritten, keeping `timeoutTime_ms`, with no events. -/
def registerInput (s : MuxerState) (priority : Int) (component : Components)
    (origin owner : String) (smooth_cfg : Nat) : MuxerState × List Event :=
  match tblFind? s.activeInputs priority with
  | some input =>
    let v : InputInfo := { input with
      priority := priority
      componentId := component
      origin := origin
      smooth_cfg := smooth_cfg
      owner := owner }
    ({ s with activeInputs := tblInsert s.activeInputs priority v }, [])
  | none =>
    let v : InputInfo := {
      priority := priority
      timeoutTime_ms := -100
      componentId := component
      origin := origin
      smooth_cfg := smooth_cfg
      owner := owner
      ledColors := []
      image := default }
    ({ s with activeInputs := tblInsert s.activeInputs priority v },
     [Event.priorityChanged priority true, Event.prioritiesChanged])

/-- The active/inactive edge detector shared by `setInput` and
`setInputImage`: a change happens on any `-100 ↔ non--100` transition. -/
def activeChangeFlag (oldTimeout newTimeout : Int) : Bool :=
  (decide (oldTimeout = -100) && decide (newTimeout ≠ -100)) ||
  (decide (newTimeout = -100) && decide (oldTimeout ≠ -100))

/-- The `active` argument of the emitted `activeStateChanged`: false only on
the `non--100 → -100` transition. -/
def activeFlag (oldTimeout newTimeout : Int) : Bool :=
  !(decide (newTimeout = -100) && decide (oldTimeout ≠ -100))

/-- `PriorityMuxer::setInput(priority, ledColors, timeout_ms)`: rejected
(false, no change, no events) for unregistered priorities; otherwise stores
the computed timeout and the colors, and on an active/inactive edge emits
`activeStateChanged` and runs the sweep. -/
def setInput (s : MuxerState) (priority : Int) (ledColors : List ColorRgb)
    (timeout_ms now : Int) : MuxerState × List Event × Bool :=
  match tblFind? s.activeInputs priority with
  | none => (s, [], false)
  | some input =>
    let newTimeout := calcTimeout timeout_ms now
    let v : InputInfo := { input with timeoutTime_ms := newTimeout, ledColors := ledColors }
    let s1 : MuxerState := { s with activeInputs := tblInsert s.activeInputs priority v }
    if activeChangeFlag input.timeoutTime_ms newTimeout then
      ((setCurrentTime s1 now).1,
       Event.activeStateChanged priority (activeFlag input.timeoutTime_ms newTimeout)
         :: (setCurrentTime s1 now).2,
       true)
    else (s1, [], true)

/-- `PriorityMuxer::setInputImage(priority, image, timeout_ms)`: identical
to `setInput` but stores the image payload. -/
def setInputImage (s : MuxerState) (priority : Int) (image : ImageRgb)
    (timeout_ms now : Int) : MuxerState × List Event × Bool :=
  match tblFind? s.activeInputs priority with
  | none => (s, [], false)
  | some input =>
    let newTimeout := calcTimeout timeout_ms now
    let v : InputInfo := { input with timeoutTime_ms := newTimeout, image := image }
    let s1 : MuxerState := { s with activeInputs := tblInsert s.activeInputs priority v }
    if activeChangeFlag input.timeoutTime_ms newTimeout then
      ((setCurrentTime s1 now).1,
       Event.activeStateChanged priority (activeFlag input.timeoutTime_ms newTimeout)
         :: (setCurrentTime s1 now).2,
       true)
    else (s1, [], true)

/-- `PriorityMuxer::setInputInactive(quint8 priority)`:
`setInputImage(priority, Image(), -100)`. -/
def setInputInactive (s : MuxerState) (priority : Int) (now : Int) :
    MuxerState × List Event × Bool :=
  setInputImage s (priority.emod 256) default (-100) now

/-- `PriorityMuxer::clearInput(uint8_t priority)`: for priorities below
LOWEST that are present, remove the record, run the sweep, then emit
`priorityChanged(p,false)` and `prioritiesChanged`. -/
def clearInput (s : MuxerState) (priority : Int) (now : Int) :
    MuxerState × List Event × Bool :=
  if priority.emod 256 < LOWEST_PRIORITY &&
     tblContains s.activeInputs (priority.emod 256) then
    ((setCurrentTime { s with activeInputs := tblRemove s.activeInputs (priority.emod 256) } now).1,
     (setCurrentTime { s with activeInputs := tblRemove s.activeInputs (priority.emod 256) } now).2
       ++ [Event.priorityChanged (priority.emod 256) false, Event.prioritiesChanged],
     true)
  else (s, [], false)

/-- `PriorityMuxer::getInputInfo`: the record at the priority, falling back
to the record at LOWEST, falling back to `_lowestPriorityInfo`. -/
def getInputInfo (s : MuxerState) (priority : Int) : InputInfo :=
  match tblFind? s.activeInputs priority with
  | some info => info
  | none =>
    match tblFind? s.activeInputs LOWEST_PRIORITY with
    | some info => info
    | none => s.lowestPriorityInfo

/-- The `forceClearAll = false` loop of `clearAll`: iterate the snapshot of
keys and `clearInput` every COLOR/EFFECT record below `LOWEST - 1`. -/
def clearAllLoop (now : Int) : List Int → MuxerState → MuxerState × List Event
  | [], s => (s, [])
  | key :: keys, s =>
    if ((getInputInfo s key).componentId = Components.COMP_COLOR ||
        (getInputInfo s key).componentId = Components.COMP_EFFECT) &&
       decide (key < LOWEST_PRIORITY - 1) then
      let r1 := clearInput s key now
      let r2 := clearAllLoop now keys r1.1
      (r2.1, r1.2.1 ++ r2.2)
    else
      clearAllLoop now keys s

/-- `PriorityMuxer::clearAll(bool forceClearAll)`: force wipes the table and
re-inserts the background record at LOWEST; otherwise clears the
COLOR/EFFECT records below `LOWEST - 1`. -/
def clearAll (s : MuxerState) (forceClearAll : Bool) (now : Int) :
    MuxerState × List Event :=
  if forceClearAll then
    ({ s with
        activeInputs := tblInsert [] LOWEST_PRIORITY s.lowestPriorityInfo
        currentPriority := LOWEST_PRIORITY }, [])
  else
    clearAllLoop now (tblKeys s.activeInputs) s

/-- `std::vector::resize(count, value)`: truncate to `count`, or append
copies of `value` up to `count`. -/
def vectorResize (l : List ColorRgb) (count : Nat) (value : ColorRgb) : List ColorRgb :=
  if count ≤ l.length then l.take count
  else l ++ List.replicate (count - l.length) value

/-- `PriorityMuxer::updateLedColorsLength(ledCount)`: resize each record's
color buffer to `ledCount`, filling with element 0 — but only for records
whose buffer has at least one element (the body of the loop, one entry). -/
def resizeEntry (ledCount : Nat) (e : Int × InputInfo) : Int × InputInfo :=
  if 1 ≤ e.2.ledColors.length then
    (e.1, { e.2 with
            ledColors := vectorResize e.2.ledColors ledCount (e.2.ledColors.headD default) })
  else e

/-- `PriorityMuxer::updateLedColorsLength(ledCount)` as the map over the
table. -/
def updateLedColorsLength (s : MuxerState) (ledCount : Nat) : MuxerState :=
  { s with activeInputs := s.activeInputs.map (resizeEntry ledCount) }

/-! ## Derived notions used by the claims -/

/-- Fold of the sweep's minimum rule over a table, from a given start value:
records with `timeoutTime_ms > -100` contribute their `priority` field. -/
def minActiveFrom (init : Int) (t : InputTable) : Int :=
  t.foldl (fun acc e => if e.2.timeoutTime_ms > -100 then min acc e.2.priority else acc) init

/-- The selection rule exactly as claim C1 words it: priority 0 whenever it
is present and not inactive; otherwise the pinned manual priority when
manual mode is engaged and that priority is present; otherwise the smallest
active priority, falling back to LOWEST. -/
def claimSelector (s : MuxerState) : Int :=
  match tblFind? s.activeInputs 0 with
  | some z =>
    if z.timeoutTime_ms > -100 then 0
    else if !s.sourceAutoSelectEnabled && tblContains s.activeInputs s.manualSelectedPriority
    then s.manualSelectedPriority
    else minActiveFrom LOWEST_PRIORITY s.activeInputs
  | none =>
    if !s.sourceAutoSelectEnabled && tblContains s.activeInputs s.manualSelectedPriority
    then s.manualSelectedPriority
    else minActiveFrom LOWEST_PRIORITY s.activeInputs

/-- The selection rule the code actually implements, phrased over the
pre-sweep table (for the priority-0 check) and the post-sweep table (for
everything else): the manual pin when engaged and still present, otherwise
the minimum of the surviving active priorities started from 0 when key 0
was present before the expiry pass (and from LOWEST otherwise). -/
def amendedSelector (pre post : InputTable) (auto : Bool) (manual : Int) : Int :=
  if !auto && tblContains post manual then manual
  else minActiveFrom (if tblContains pre 0 then 0 else LOWEST_PRIORITY) post

/-- Is this event a `visiblePriorityChanged`? -/
def isVisibleEvent : Event → Bool
  | Event.visiblePriorityChanged _ => true
  | _ => false

/-- Is this event a removal notification `priorityChanged(_, false)`? -/
def isRemovalEvent : Event → Bool
  | Event.priorityChanged _ false => true
  | _ => false

/-- Claim C9's ordering check on a trace: from the first
`visiblePriorityChanged` on, no `priorityChanged(_, false)` follows —
equivalently, every removal notification precedes every visible-priority
notification. -/
def noRemovalAfterVisible : List Event → Bool
  | [] => true
  | e :: rest =>
    if isVisibleEvent e then rest.all (fun x => !isRemovalEvent x)
    else noRemovalAfterVisible rest

/-! ## Table lemmas -/

theorem tblFind?_insert_self (t : InputTable) (k : Int) (v : InputInfo) :
    tblFind? (tblInsert t k v) k = some v := by
  induction t with
  | nil => simp [tblInsert, tblFind?]
  | cons e rest ih =>
    by_cases h1 : k < e.1
    · simp [tblInsert, h1, tblFind?]
    · by_cases h2 : k = e.1
      · simp [tblInsert, h1, h2, tblFind?]
      · simp only [tblInsert, if_neg h1, if_neg h2, tblFind?]
        rw [if_neg (fun h => h2 h.symm)]
        exact ih

theorem tblFind?_insert_ne (t : InputTable) (k j : Int) (v : InputInfo) (hne : j ≠ k) :
    tblFind? (tblInsert t k v) j = tblFind? t j := by
  induction t with
  | nil =>
    simp only [tblInsert, tblFind?]
    exact if_neg (fun h => hne h.symm)
  | cons e rest ih =>
    by_cases h1 : k < e.1
    · simp only [tblInsert, if_pos h1, tblFind?]
      rw [if_neg (fun h => hne h.symm)]
    · by_cases h2 : k = e.1
      · simp only [tblInsert, if_neg h1, if_pos h2, tblFind?]
        rw [if_neg (fun h => hne h.symm), if_neg (by rw [← h2]; exact fun h => hne h.symm)]
      · simp only [tblInsert, if_neg h1, if_neg h2, tblFind?]
        by_cases h3 : e.1 = j
        · simp [h3]
        · simp only [if_neg h3]
          exact ih

theorem tblFind?_filter (t : InputTable) (k : Int) (i : InputInfo)
    (p : Int × InputInfo → Bool)
    (hf : tblFind? t k = some i) (hp : p (k, i) = true) :
    tblFind? (t.filter p) k = some i := by
  induction t with
  | nil => simp [tblFind?] at hf
  | cons e rest ih =>
    by_cases h1 : e.1 = k
    · simp only [tblFind?, if_pos h1] at hf
      obtain ⟨rfl⟩ := hf
      have he : e = (k, e.2) := by
        cases e; simp_all
      rw [he] at hp ⊢
      simp [List.filter, hp, tblFind?]
    · simp only [tblFind?, if_neg h1] at hf
      by_cases h2 : p e = true
      · simp only [List.filter_cons, if_pos h2, tblFind?, if_neg h1]
        exact ih hf
      · simp only [List.filter_cons, h2]
        simp only [Bool.false_eq_true, if_false]
        exact ih hf

theorem tblFind?_remove_ne (t : InputTable) (k j : Int) (hne : j ≠ k) :
    tblFind? (tblRemove t k) j = tblFind? t j := by
  induction t with
  | nil => rfl
  | cons e rest ih =>
    by_cases h1 : e.1 = k
    · rw [tblRemove, if_pos h1, tblFind?, if_neg (by rw [h1]; exact fun h => hne h.symm)]
      exact ih
    · rw [tblRemove, if_neg h1, tblFind?, tblFind?]
      by_cases h2 : e.1 = j
      · simp [h2]
      · simp only [if_neg h2]
        exact ih

theorem tblContains_of_find (t : InputTable) (k : Int) (i : InputInfo)
    (hf : tblFind? t k = some i) : tblContains t k = true := by
  simp [tblContains, hf]

/-! ## Sweep characterization lemmas -/

theorem sweepLoop_fst (now : Int) (t : InputTable) (init : Int) :
    (sweepLoop now t init).1 = t.filter (fun e => !expired now e.2) := by
  induction t generalizing init with
  | nil => rfl
  | cons e rest ih =>
    obtain ⟨key, info⟩ := e
    by_cases h : expired now info
    · simp only [sweepLoop, if_pos h, List.filter_cons, h]
      simp only [Bool.not_true, Bool.false_eq_true, if_false]
      exact ih init
    · simp only [sweepLoop, if_neg h, List.filter_cons]
      have hb : expired now info = false := by simp [h]
      simp only [hb, Bool.not_false, if_true, List.cons.injEq, true_and]
      exact ih _

theorem sweepLoop_np (now : Int) (t : InputTable) (init : Int) :
    (sweepLoop now t init).2.1 = minActiveFrom init (sweepLoop now t init).1 := by
  induction t generalizing init with
  | nil => rfl
  | cons e rest ih =>
    obtain ⟨key, info⟩ := e
    by_cases h : expired now info
    · simp only [sweepLoop, if_pos h]
      exact ih init
    · simp only [sweepLoop, if_neg h, minActiveFrom, List.foldl_cons]
      exact ih _

theorem sweepLoop_no_visible (now : Int) (t : InputTable) (init : Int) :
    ∀ ev ∈ (sweepLoop now t init).2.2, isVisibleEvent ev = false := by
  induction t generalizing init with
  | nil => intro ev hev; simp [sweepLoop] at hev
  | cons e rest ih =>
    obtain ⟨key, info⟩ := e
    by_cases h : expired now info
    · simp only [sweepLoop, if_pos h]
      intro ev hev
      simp only [List.mem_cons] at hev
      rcases hev with rfl | hev
      · rfl
      rcases hev with rfl | hev
      · rfl
      · exact ih init ev hev
    · simp only [sweepLoop, if_neg h]
      intro ev hev
      rw [List.mem_append] at hev
      rcases hev with hev | hev
      · by_cases ht : (decide (info.priority < 254) && decide (info.timeoutTime_ms > 0) &&
          (decide (info.componentId = Components.COMP_EFFECT) ||
           decide (info.componentId = Components.COMP_COLOR))) = true
        · simp only [ht, if_true, List.mem_singleton] at hev
          subst hev; rfl
        · simp only [Bool.not_eq_true] at ht
          simp [ht] at hev
      · exact ih _ ev hev

theorem setCurrentTime_table (s : MuxerState) (now : Int) :
    (setCurrentTime s now).1.activeInputs =
      s.activeInputs.filter (fun e => !expired now e.2) := by
  simp only [setCurrentTime]
  exact sweepLoop_fst now s.activeInputs (sweepInit s)

theorem setCurrentTime_find (s : MuxerState) (now : Int) (j : Int) (i : InputInfo)
    (hf : tblFind? s.activeInputs j = some i) (he : expired now i = false) :
    tblFind? (setCurrentTime s now).1.activeInputs j = some i := by
  rw [setCurrentTime_table]
  exact tblFind?_filter _ _ _ _ hf (by simp [he])

theorem setCurrentTime_table_id (s : MuxerState) (now : Int)
    (h : ∀ e ∈ s.activeInputs, expired now e.2 = false) :
    (setCurrentTime s now).1.activeInputs = s.activeInputs := by
  rw [setCurrentTime_table]
  apply List.filter_eq_self.mpr
  intro e he
  simp [h e he]

theorem expired_calcTimeout (now t : Int) (info : InputInfo)
    (h : info.timeoutTime_ms = calcTimeout t now) : expired now info = false := by
  unfold calcTimeout at h
  unfold expired
  split at h <;> simp [h] <;> omega

/-! ## Claim C1 -/

/-- Scenario refuting claim C1's selector rule: a source at priority 0 is
registered and active, a second source at 10 is active, and the user pins
priority 10. -/
def c1StateA : MuxerState := (registerInput (initState 1) 0 Components.COMP_COLOR "net" "" 0).1

def c1StateB : MuxerState := (setInput c1StateA 0 [⟨255, 0, 0⟩] (-1) 0).1

def c1StateC : MuxerState := (registerInput c1StateB 10 Components.COMP_COLOR "ui" "" 0).1

def c1StateD : MuxerState := (setInput c1StateC 10 [⟨0, 255, 0⟩] (-1) 0).1

def c1StateE : MuxerState := (setPriority c1StateD 10 0).1

/-- C1 counterexample: immediately after the mutating public call
`setPriority(10)` (which runs a synchronous sweep), the published
`current_priority` is 10 — the engaged manual pin — even though priority 0
is present and not inactive, so the claimed selector (priority 0 always
wins) disagrees with the published value. -/
theorem c1_counterexample :
    claimSelector c1StateE ≠ c1StateE.currentPriority ∧
    claimSelector c1StateE = 0 ∧ c1StateE.currentPriority = 10 := by decide

/-- C1 (amended): after each sweep the published `current_priority` equals
the selector the code implements: the pinned manual priority when manual
mode is engaged and that priority survives the expiry pass (this overrides
priority 0); otherwise the minimum over the surviving priorities with
`timeout_time_ms > -100`, seeded with 0 when key 0 was present at the start
of the sweep (even if inactive or expiring) and with LOWEST otherwise. -/
theorem c1_sweep_publishes_selector (s : MuxerState) (now : Int) :
    (setCurrentTime s now).1.currentPriority =
      amendedSelector s.activeInputs (setCurrentTime s now).1.activeInputs
        s.sourceAutoSelectEnabled s.manualSelectedPriority := by
  show sweepNewPriority s now =
    amendedSelector s.activeInputs (sweepLoop now s.activeInputs (sweepInit s)).1
      s.sourceAutoSelectEnabled s.manualSelectedPriority
  unfold sweepNewPriority amendedSelector
  by_cases h : (!s.sourceAutoSelectEnabled &&
      tblContains (sweepLoop now s.activeInputs (sweepInit s)).1 s.manualSelectedPriority) = true
  · rw [if_pos h, if_pos h]
  · rw [if_neg h, if_neg h]
    exact sweepLoop_np now s.activeInputs (sweepInit s)

/-! ## Claim C2 -/

theorem expired_only_timeout (now : Int) (i j : InputInfo)
    (h : i.timeoutTime_ms = j.timeoutTime_ms) : expired now i = expired now j := by
  unfold expired
  rw [h]

theorem setCurrentTime_contains_lowest (s : MuxerState) (now : Int) (i : InputInfo)
    (hf : tblFind? s.activeInputs LOWEST_PRIORITY = some i)
    (he : expired now i = false) :
    tblContains (setCurrentTime s now).1.activeInputs LOWEST_PRIORITY = true :=
  tblContains_of_find _ _ _ (setCurrentTime_find s now _ i hf he)

theorem clearInput_find_lowest (s : MuxerState) (p now : Int) (i : InputInfo)
    (hf : tblFind? s.activeInputs LOWEST_PRIORITY = some i)
    (he : expired now i = false) :
    tblFind? (clearInput s p now).1.activeInputs LOWEST_PRIORITY = some i := by
  unfold clearInput
  by_cases hc : (decide (p.emod 256 < LOWEST_PRIORITY) &&
      tblContains s.activeInputs (p.emod 256)) = true
  · rw [if_pos hc]
    have hlt : p.emod 256 < LOWEST_PRIORITY := by
      simp only [Bool.and_eq_true, decide_eq_true_eq] at hc
      exact hc.1
    have hne : LOWEST_PRIORITY ≠ p.emod 256 := by omega
    exact setCurrentTime_find _ now _ i (by rw [tblFind?_remove_ne _ _ _ hne]; exact hf) he
  · rw [if_neg hc]
    exact hf

theorem clearAllLoop_find_lowest (now : Int) (i : InputInfo)
    (he : expired now i = false) :
    ∀ (ks : List Int) (s : MuxerState),
      tblFind? s.activeInputs LOWEST_PRIORITY = some i →
      tblFind? (clearAllLoop now ks s).1.activeInputs LOWEST_PRIORITY = some i := by
  intro ks
  induction ks with
  | nil => intro s hf; exact hf
  | cons key keys ih =>
    intro s hf
    unfold clearAllLoop
    by_cases hc : ((decide ((getInputInfo s key).componentId = Components.COMP_COLOR) ||
        decide ((getInputInfo s key).componentId = Components.COMP_EFFECT)) &&
        decide (key < LOWEST_PRIORITY - 1)) = true
    · rw [if_pos hc]
      exact ih _ (clearInput_find_lowest s key now i hf he)
    · rw [if_neg hc]
      exact ih _ hf

def c2StateA : MuxerState := (setInput (initState 1) 255 [⟨1, 2, 3⟩] 300 0).1

def c2StateB : MuxerState := (setCurrentTime c2StateA 400).1

/-- C2 counterexample: `set_color_input(255, colors, 300)` at time 0 gives
the LOWEST record the absolute deadline 300; the sweep at time 400 then
erases the LOWEST record from the table and never re-inserts it, so the
key 255 is absent at an observable instant. -/
theorem c2_counterexample :
    tblContains c2StateB.activeInputs LOWEST_PRIORITY = false ∧
    tblContains c2StateA.activeInputs LOWEST_PRIORITY = true := by decide

/-- C2 (amended): the key LOWEST survives every public operation as long as
its own record's deadline has not expired: if the table maps LOWEST to a
record that is not positive-and-elapsed at the call time, then after
register, set_color_input, set_image_input, set_inactive, clear, clear_all
(either force flag), set_manual_priority, set_auto_select and the tick
sweep, LOWEST is still present. (Only a sweep's expiry pass can drop it,
and only after a `set_*` call gave priority 255 a positive timeout that
elapsed — the situation of the counterexample.) -/
theorem c2_lowest_preserved (s : MuxerState) (now : Int) (i : InputInfo)
    (hf : tblFind? s.activeInputs LOWEST_PRIORITY = some i)
    (he : expired now i = false) :
    (∀ p comp orig ow sc,
      tblContains (registerInput s p comp orig ow sc).1.activeInputs LOWEST_PRIORITY = true) ∧
    (∀ p colors t,
      tblContains (setInput s p colors t now).1.activeInputs LOWEST_PRIORITY = true) ∧
    (∀ p img t,
      tblContains (setInputImage s p img t now).1.activeInputs LOWEST_PRIORITY = true) ∧
    (∀ p, tblContains (setInputInactive s p now).1.activeInputs LOWEST_PRIORITY = true) ∧
    (∀ p, tblContains (clearInput s p now).1.activeInputs LOWEST_PRIORITY = true) ∧
    (∀ force, tblContains (clearAll s force now).1.activeInputs LOWEST_PRIORITY = true) ∧
    (∀ p, tblContains (setPriority s p now).1.activeInputs LOWEST_PRIORITY = true) ∧
    (∀ en up,
      tblContains (setSourceAutoSelectEnabled s en up now).1.activeInputs LOWEST_PRIORITY = true) ∧
    tblContains (setCurrentTime s now).1.activeInputs LOWEST_PRIORITY = true := by
  have hsse : ∀ (s1 : MuxerState) (en up : Bool),
      tblFind? s1.activeInputs LOWEST_PRIORITY = some i →
      tblContains (setSourceAutoSelectEnabled s1 en up now).1.activeInputs LOWEST_PRIORITY = true := by
    intro s1 en up hf1
    unfold setSourceAutoSelectEnabled
    by_cases h1 : s1.sourceAutoSelectEnabled ≠ en
    · rw [if_pos h1]
      by_cases h2 : (!en && !tblContains s1.activeInputs s1.manualSelectedPriority) = true
      · rw [if_pos h2]
        exact tblContains_of_find _ _ _ hf1
      · rw [if_neg h2]
        by_cases h3 : up
        · simp only [h3, if_true]
          exact setCurrentTime_contains_lowest _ now i hf1 he
        · simp only [h3, Bool.false_eq_true, if_false]
          exact tblContains_of_find _ _ _ hf1
    · rw [if_neg h1]
      exact tblContains_of_find _ _ _ hf1
  have hsetimg : ∀ p img t,
      tblContains (setInputImage s p img t now).1.activeInputs LOWEST_PRIORITY = true := by
    intro p img t
    unfold setInputImage
    cases hfp : tblFind? s.activeInputs p with
    | none => exact tblContains_of_find _ _ _ hf
    | some input =>
      simp only
      by_cases hp : LOWEST_PRIORITY = p
      · subst hp
        have hself := tblFind?_insert_self s.activeInputs LOWEST_PRIORITY
          { input with timeoutTime_ms := calcTimeout t now, image := img }
        have hexp : expired now { input with timeoutTime_ms := calcTimeout t now, image := img } = false :=
          expired_calcTimeout now t _ rfl
        by_cases hac : activeChangeFlag input.timeoutTime_ms (calcTimeout t now) = true
        · simp only [hac, if_true]
          exact setCurrentTime_contains_lowest _ now _ hself hexp
        · simp only [hac, Bool.false_eq_true, if_false]
          exact tblContains_of_find _ _ _ hself
      · have hkeep := tblFind?_insert_ne s.activeInputs p LOWEST_PRIORITY
          { input with timeoutTime_ms := calcTimeout t now, image := img } hp
        rw [hf] at hkeep
        by_cases hac : activeChangeFlag input.timeoutTime_ms (calcTimeout t now) = true
        · simp only [hac, if_true]
          exact setCurrentTime_contains_lowest _ now _ hkeep he
        · simp only [hac, Bool.false_eq_true, if_false]
          exact tblContains_of_find _ _ _ hkeep
  refine ⟨?_, ?_, hsetimg, ?_, ?_, ?_, ?_, fun en up => hsse s en up hf, ?_⟩
  · intro p comp orig ow sc
    unfold registerInput
    cases hfp : tblFind? s.activeInputs p with
    | none =>
      simp only
      by_cases hp : LOWEST_PRIORITY = p
      · exact tblContains_of_find _ _ _ (by rw [hp]; exact tblFind?_insert_self _ _ _)
      · exact tblContains_of_find _ _ _ (by rw [tblFind?_insert_ne _ _ _ _ hp]; exact hf)
    | some input =>
      simp only
      by_cases hp : LOWEST_PRIORITY = p
      · exact tblContains_of_find _ _ _ (by rw [hp]; exact tblFind?_insert_self _ _ _)
      · exact tblContains_of_find _ _ _ (by rw [tblFind?_insert_ne _ _ _ _ hp]; exact hf)
  · intro p colors t
    unfold setInput
    cases hfp : tblFind? s.activeInputs p with
    | none => exact tblContains_of_find _ _ _ hf
    | some input =>
      simp only
      by_cases hp : LOWEST_PRIORITY = p
      · subst hp
        have hself := tblFind?_insert_self s.activeInputs LOWEST_PRIORITY
          { input with timeoutTime_ms := calcTimeout t now, ledColors := colors }
        have hexp : expired now { input with timeoutTime_ms := calcTimeout t now, ledColors := colors } = false :=
          expired_calcTimeout now t _ rfl
        by_cases hac : activeChangeFlag input.timeoutTime_ms (calcTimeout t now) = true
        · simp only [hac, if_true]
          exact setCurrentTime_contains_lowest _ now _ hself hexp
        · simp only [hac, Bool.false_eq_true, if_false]
          exact tblContains_of_find _ _ _ hself
      · have hkeep := tblFind?_insert_ne s.activeInputs p LOWEST_PRIORITY
          { input with timeoutTime_ms := calcTimeout t now, ledColors := colors } hp
        rw [hf] at hkeep
        by_cases hac : activeChangeFlag input.timeoutTime_ms (calcTimeout t now) = true
        · simp only [hac, if_true]
          exact setCurrentTime_contains_lowest _ now _ hkeep he
        · simp only [hac, Bool.false_eq_true, if_false]
          exact tblContains_of_find _ _ _ hkeep
  · intro p
    exact hsetimg (p.emod 256) default (-100)
  · intro p
    exact tblContains_of_find _ _ _ (clearInput_find_lowest s p now i hf he)
  · intro force
    unfold clearAll
    by_cases hfo : force = true
    · simp only [hfo, if_true]
      exact tblContains_of_find _ _ _ (tblFind?_insert_self _ _ _)
    · simp only [hfo, Bool.false_eq_true, if_false]
      exact tblContains_of_find _ _ _ (clearAllLoop_find_lowest now i he _ s hf)
  · intro p
    unfold setPriority
    by_cases hc : tblContains s.activeInputs (p.emod 256) = true
    · simp only [hc, if_true]
      exact hsse _ false true hf
    · simp only [hc, Bool.false_eq_true, if_false]
      exact tblContains_of_find _ _ _ hf
  · exact setCurrentTime_contains_lowest s now i hf he

/-- C2 amended-claim witness: the fresh muxer satisfies the hypotheses and
the sweep at time 0 keeps LOWEST present. -/
theorem c2_lowest_preserved_witness :
    tblContains (setCurrentTime (initState 1) 0).1.activeInputs LOWEST_PRIORITY = true :=
  (c2_lowest_preserved (initState 1) 0 (lowestInfo 1) (by decide) (by decide)).2.2.2.2.2.2.2.2

/-! ## Claim C3 -/

def c3StateA : MuxerState := (registerInput (initState 1) 100 Components.COMP_COLOR "ui" "" 0).1

def c3StateB : MuxerState := (setInput c3StateA 100 [⟨0, 0, 255⟩] 0 5).1

def c3StateC : MuxerState := (setCurrentTime c3StateB 1000000).1

/-- C3 counterexample: after `set_color_input(100, colors, 0)` at time 5,
the record at 100 stores `timeout_time_ms = 0`; the next sweep — even at
time 1000000 — does not remove it (the expiry test is strict,
`timeout > 0`), and the record is in fact selected as visible rather than
treated as expired. -/
theorem c3_counterexample :
    tblContains c3StateC.activeInputs 100 = true ∧
    c3StateC.currentPriority = 100 := by decide

/-- C3 (amended): `timeout_ms = 0` is stored unchanged (not converted to an
absolute deadline) and never expires: for a registered priority, both
`set_color_input(p, colors, 0)` and `set_image_input(p, img, 0)` succeed
and leave the record with `timeout_time_ms = 0`, and the record survives
any later sweep — at every future time — unchanged (so it is never removed
and, since `0 > -100`, it keeps counting as active). -/
theorem c3_zero_timeout_persists (s : MuxerState) (p : Int) (colors : List ColorRgb)
    (img : ImageRgb) (now later : Int) (i : InputInfo)
    (hf : tblFind? s.activeInputs p = some i) :
    ((setInput s p colors 0 now).2.2 = true ∧
     tblFind? (setInput s p colors 0 now).1.activeInputs p =
       some { i with timeoutTime_ms := 0, ledColors := colors } ∧
     tblFind? (setCurrentTime (setInput s p colors 0 now).1 later).1.activeInputs p =
       some { i with timeoutTime_ms := 0, ledColors := colors }) ∧
    ((setInputImage s p img 0 now).2.2 = true ∧
     tblFind? (setInputImage s p img 0 now).1.activeInputs p =
       some { i with timeoutTime_ms := 0, image := img } ∧
     tblFind? (setCurrentTime (setInputImage s p img 0 now).1 later).1.activeInputs p =
       some { i with timeoutTime_ms := 0, image := img }) := by
  have hct : calcTimeout 0 now = 0 := by simp [calcTimeout]
  have hmain : (setInput s p colors 0 now).2.2 = true ∧
      tblFind? (setInput s p colors 0 now).1.activeInputs p =
        some { i with timeoutTime_ms := 0, ledColors := colors } := by
    unfold setInput
    simp only [hf, hct]
    by_cases hac : activeChangeFlag i.timeoutTime_ms 0 = true
    · simp only [hac, if_true]
      refine ⟨trivial, ?_⟩
      exact setCurrentTime_find _ now p _ (tblFind?_insert_self _ _ _) (by simp [expired])
    · simp only [hac, Bool.false_eq_true, if_false]
      exact ⟨trivial, tblFind?_insert_self _ _ _⟩
  have himg : (setInputImage s p img 0 now).2.2 = true ∧
      tblFind? (setInputImage s p img 0 now).1.activeInputs p =
        some { i with timeoutTime_ms := 0, image := img } := by
    unfold setInputImage
    simp only [hf, hct]
    by_cases hac : activeChangeFlag i.timeoutTime_ms 0 = true
    · simp only [hac, if_true]
      refine ⟨trivial, ?_⟩
      exact setCurrentTime_find _ now p _ (tblFind?_insert_self _ _ _) (by simp [expired])
    · simp only [hac, Bool.false_eq_true, if_false]
      exact ⟨trivial, tblFind?_insert_self _ _ _⟩
  refine ⟨⟨hmain.1, hmain.2, ?_⟩, ⟨himg.1, himg.2, ?_⟩⟩
  · exact setCurrentTime_find _ later p _ hmain.2 (by simp [expired])
  · exact setCurrentTime_find _ later p _ himg.2 (by simp [expired])

/-- C3 amended-claim witness: the scenario above, instantiated for both the
color path and the image path. -/
theorem c3_zero_timeout_persists_witness :
    ((setInput c3StateA 100 [⟨0, 0, 255⟩] 0 5).2.2 = true ∧
     tblFind? (setInput c3StateA 100 [⟨0, 0, 255⟩] 0 5).1.activeInputs 100 =
       some { priority := 100, timeoutTime_ms := 0, componentId := Components.COMP_COLOR,
              origin := "ui", owner := "", smooth_cfg := 0,
              ledColors := [⟨0, 0, 255⟩], image := default } ∧
     tblFind? (setCurrentTime (setInput c3StateA 100 [⟨0, 0, 255⟩] 0 5).1 1000000).1.activeInputs 100 =
       some { priority := 100, timeoutTime_ms := 0, componentId := Components.COMP_COLOR,
              origin := "ui", owner := "", smooth_cfg := 0,
              ledColors := [⟨0, 0, 255⟩], image := default }) ∧
    ((setInputImage c3StateA 100 ⟨6, 4⟩ 0 5).2.2 = true ∧
     tblFind? (setInputImage c3StateA 100 ⟨6, 4⟩ 0 5).1.activeInputs 100 =
       some { priority := 100, timeoutTime_ms := 0, componentId := Components.COMP_COLOR,
              origin := "ui", owner := "", smooth_cfg := 0,
              ledColors := [], image := ⟨6, 4⟩ } ∧
     tblFind? (setCurrentTime (setInputImage c3StateA 100 ⟨6, 4⟩ 0 5).1 1000000).1.activeInputs 100 =
       some { priority := 100, timeoutTime_ms := 0, componentId := Components.COMP_COLOR,
              origin := "ui", owner := "", smooth_cfg := 0,
              ledColors := [], image := ⟨6, 4⟩ }) :=
  c3_zero_timeout_persists c3StateA 100 [⟨0, 0, 255⟩] ⟨6, 4⟩ 5 1000000
    { priority := 100, timeoutTime_ms := -100, componentId := Components.COMP_COLOR,
      origin := "ui", owner := "", smooth_cfg := 0, ledColors := [], image := default }
    (by decide)

/-! ## Claim C4 -/

theorem vectorResize_eq (l : List ColorRgb) (n : Nat) (v : ColorRgb) :
    vectorResize l n v = l.take n ++ List.replicate (n - l.length) v := by
  unfold vectorResize
  by_cases h : n ≤ l.length
  · rw [if_pos h, Nat.sub_eq_zero_of_le h]
    simp
  · rw [if_neg h, List.take_of_length_le (le_of_not_le h)]

def c4StateA : MuxerState := (registerInput (initState 1) 100 Components.COMP_COLOR "x" "" 0).1

/-- C4 counterexample: a freshly registered record has an empty
`led_colors` buffer; `update_led_count(3)` leaves it empty (length 0)
instead of resizing it to 3 black entries as the claim states. -/
theorem c4_counterexample :
    ((tblFind? (updateLedColorsLength c4StateA 3).activeInputs 100).map
      (fun i => i.ledColors.length)) = some 0 ∧
    ((tblFind? (updateLedColorsLength c4StateA 3).activeInputs 100).map
      (fun i => i.ledColors.length)) ≠ some 3 := by decide

/-- C4 (amended): `update_led_count(n)` resizes the `led_colors` buffer of
every record whose buffer is non-empty to length `n` — keeping the first
`n` existing entries and filling grown slots with copies of element 0 —
while records whose buffer is empty are left unchanged (they are skipped,
not filled with black). -/
theorem c4_resize_skips_empty (s : MuxerState) (n : Nat) :
    (updateLedColorsLength s n).activeInputs = s.activeInputs.map (fun e =>
      match e.2.ledColors with
      | [] => e
      | c :: cs =>
        (e.1, { e.2 with
                ledColors := (c :: cs).take n ++ List.replicate (n - (c :: cs).length) c })) := by
  show s.activeInputs.map (resizeEntry n) = _
  apply List.map_congr_left
  intro e _
  obtain ⟨k, i⟩ := e
  cases hl : i.ledColors with
  | nil => simp [resizeEntry, hl]
  | cons c cs =>
    simp only [resizeEntry, hl]
    rw [if_pos (by simp)]
    simp [vectorResize_eq]

/-! ## Claim C5 -/

/-- C5: for a priority absent from the table, `set_color_input` and
`set_image_input` return false, leave the whole muxer state unchanged and
emit no events. -/
theorem c5_unregistered_rejected (s : MuxerState) (p : Int) (colors : List ColorRgb)
    (img : ImageRgb) (t now : Int) (h : tblFind? s.activeInputs p = none) :
    setInput s p colors t now = (s, [], false) ∧
    setInputImage s p img t now = (s, [], false) := by
  unfold setInput setInputImage
  rw [h]
  exact ⟨rfl, rfl⟩

/-- C5 witness: priority 100 is not registered in the fresh muxer. -/
theorem c5_unregistered_rejected_witness :
    setInput (initState 1) 100 [] (-1) 0 = (initState 1, [], false) ∧
    setInputImage (initState 1) 100 ⟨2, 2⟩ (-1) 0 = (initState 1, [], false) :=
  c5_unregistered_rejected (initState 1) 100 [] ⟨2, 2⟩ (-1) 0 (by decide)

/-! ## Claim C6 -/

/-- The record `registerInput` leaves at `p` when `p` was already present:
metadata overwritten, `timeoutTime_ms` (and payload) untouched. -/
def registeredOverwrite (old : InputInfo) (p : Int) (comp : Components)
    (orig ow : String) (sc : Nat) : InputInfo :=
  { old with
    priority := p
    componentId := comp
    origin := orig
    owner := ow
    smooth_cfg := sc }

/-- The record `registerInput` creates at `p` when `p` was absent. -/
def registeredFresh (p : Int) (comp : Components) (orig ow : String) (sc : Nat) : InputInfo :=
  { priority := p
    timeoutTime_ms := -100
    componentId := comp
    origin := orig
    owner := ow
    smooth_cfg := sc
    ledColors := []
    image := default }

/-- C6: `register(p, component, origin, owner, smooth_cfg)` inserts a record
with `timeout_time_ms = -100` (and empty payload) and emits
`priority_changed(p, true)` then `priorities_changed` when `p` was absent;
when `p` was present it overwrites `component_id`, `origin`, `owner` and
`smooth_cfg` while keeping the record's `timeout_time_ms` (and payload)
untouched, and emits nothing. -/
theorem c6_register_contract (s : MuxerState) (p : Int) (comp : Components)
    (orig ow : String) (sc : Nat) :
    (registerInput s p comp orig ow sc).2 =
      (match tblFind? s.activeInputs p with
       | some _ => []
       | none => [Event.priorityChanged p true, Event.prioritiesChanged]) ∧
    tblFind? (registerInput s p comp orig ow sc).1.activeInputs p =
      some (match tblFind? s.activeInputs p with
        | some old => registeredOverwrite old p comp orig ow sc
        | none => registeredFresh p comp orig ow sc) := by
  unfold registerInput registeredOverwrite registeredFresh
  cases hfp : tblFind? s.activeInputs p with
  | some input => exact ⟨rfl, tblFind?_insert_self _ _ _⟩
  | none => exact ⟨rfl, tblFind?_insert_self _ _ _⟩

/-! ## Claim C7 -/

theorem sse_disable_noop (s1 : MuxerState) (up : Bool) (now : Int)
    (h : s1.sourceAutoSelectEnabled = false) :
    setSourceAutoSelectEnabled s1 false up now = (s1, [], false) := by
  unfold setSourceAutoSelectEnabled
  rw [h]
  simp

theorem sse_disable_engaged (s1 : MuxerState) (now : Int)
    (h : s1.sourceAutoSelectEnabled = true)
    (hc : tblContains s1.activeInputs s1.manualSelectedPriority = true) :
    setSourceAutoSelectEnabled s1 false true now =
      ((setCurrentTime { s1 with sourceAutoSelectEnabled := false } now).1,
       (setCurrentTime { s1 with sourceAutoSelectEnabled := false } now).2
         ++ [Event.autoSelectChanged false], true) := by
  unfold setSourceAutoSelectEnabled
  rw [h]
  simp [hc]

def c7StateA : MuxerState := (registerInput (initState 1) 10 Components.COMP_COLOR "a" "" 0).1

def c7StateB : MuxerState := (setInput c7StateA 10 [⟨1, 1, 1⟩] (-1) 0).1

def c7StateC : MuxerState := (registerInput c7StateB 20 Components.COMP_COLOR "b" "" 0).1

def c7StateD : MuxerState := (setInput c7StateC 20 [⟨2, 2, 2⟩] (-1) 0).1

def c7StateE : MuxerState := (setPriority c7StateD 20 0).1

/-- C7 counterexample: with sources 10 and 20 active, `set_manual_priority(20)`
engages manual mode (visible 20). A second call `set_manual_priority(10)`
returns true and stores the pin 10, but — because auto-select is already
disabled, so `setSourceAutoSelectEnabled(false)` is a no-op — it does not
re-evaluate: the published priority stays 20 instead of the claimed 10. -/
theorem c7_counterexample :
    (setPriority c7StateE 10 0).2.2 = true ∧
    (setPriority c7StateE 10 0).1.manualSelectedPriority = 10 ∧
    (setPriority c7StateE 10 0).1.currentPriority = 20 ∧
    (setPriority c7StateE 10 0).1.currentPriority ≠ 10 := by decide

/-- C7 (amended): for an absent priority `set_manual_priority(p)` returns
false and changes nothing; for a present priority whose record is not
expired it stores the pin and returns true; when auto-select was enabled it
also disables it and synchronously re-evaluates, so the published priority
equals the new pin before the call returns; but when auto-select was
already disabled the call changes only the pin — table, auto-select flag
and published priority are left exactly as they were, and no re-evaluation
happens until the next sweep. -/
theorem c7_manual_pin (s : MuxerState) (p now : Int) :
    (tblFind? s.activeInputs (p.emod 256) = none →
      setPriority s p now = (s, [], false)) ∧
    ∀ i, tblFind? s.activeInputs (p.emod 256) = some i →
      expired now i = false →
      (setPriority s p now).2.2 = true ∧
      (setPriority s p now).1.manualSelectedPriority = p.emod 256 ∧
      (s.sourceAutoSelectEnabled = true →
        (setPriority s p now).1.currentPriority = p.emod 256 ∧
        (setPriority s p now).1.sourceAutoSelectEnabled = false) ∧
      (s.sourceAutoSelectEnabled = false →
        setPriority s p now = ({ s with manualSelectedPriority := p.emod 256 }, [], true)) := by
  constructor
  · intro hnone
    unfold setPriority
    rw [if_neg (by simp [tblContains, hnone])]
  intro i hf he
  have hc : tblContains s.activeInputs (p.emod 256) = true := tblContains_of_find _ _ _ hf
  by_cases hauto : s.sourceAutoSelectEnabled = false
  · have hr := sse_disable_noop { s with manualSelectedPriority := p.emod 256 } true now hauto
    unfold setPriority
    simp only [hc, if_true, hr]
    refine ⟨by trivial, by trivial, ?_, by intros; trivial⟩
    intro habs
    rw [habs] at hauto
    cases hauto
  · have hauto2 : s.sourceAutoSelectEnabled = true := by
      cases hb : s.sourceAutoSelectEnabled
      · exact absurd hb hauto
      · rfl
    have hr := sse_disable_engaged { s with manualSelectedPriority := p.emod 256 } now hauto2 hc
    have hcss : tblContains
        (sweepLoop now s.activeInputs
          (sweepInit { s with manualSelectedPriority := p.emod 256,
                              sourceAutoSelectEnabled := false })).1 (p.emod 256) = true := by
      rw [sweepLoop_fst]
      exact tblContains_of_find _ _ _ (tblFind?_filter _ _ _ _ hf (by simp [he]))
    unfold setPriority
    simp only [hc, if_true, hr]
    refine ⟨by trivial, by trivial, fun _ => ⟨?_, ?_⟩, fun habs => absurd habs hauto⟩
    · show sweepNewPriority _ now = p.emod 256
      unfold sweepNewPriority
      rw [if_pos (by simp [hcss])]
    · show sweepAutoSelect _ now = false
      unfold sweepAutoSelect
      rw [if_neg (by simp [hcss])]

def c7WitnessInfo : InputInfo :=
  { priority := 10, timeoutTime_ms := -100, componentId := Components.COMP_COLOR,
    origin := "a", owner := "", smooth_cfg := 0, ledColors := [], image := default }

def c7WitnessState : MuxerState := { c7StateA with sourceAutoSelectEnabled := false }

/-- C7 amended-claim witness: pinning the absent priority 77 on the fresh
muxer fails without any change, and pinning the present priority 10 while
auto-select is already disabled changes only the pin. -/
theorem c7_manual_pin_witness :
    setPriority (initState 1) 77 0 = (initState 1, [], false) ∧
    setPriority c7WitnessState 10 0 =
      ({ c7WitnessState with manualSelectedPriority := (10 : Int).emod 256 }, [], true) :=
  ⟨(c7_manual_pin (initState 1) 77 0).1 (by decide),
   ((c7_manual_pin c7WitnessState 10 0).2 c7WitnessInfo (by decide) (by decide)).2.2.2 rfl⟩

/-! ## Claim C8 -/

/-- The condition `clearAll(false)` tests on an entry: COLOR or EFFECT
component and key below `LOWEST - 1`. -/
def softClearCond (e : Int × InputInfo) : Bool :=
  (decide (e.2.componentId = Components.COMP_COLOR) ||
   decide (e.2.componentId = Components.COMP_EFFECT)) &&
  decide (e.1 < LOWEST_PRIORITY - 1)

theorem tblRemove_eq_filter (t : InputTable) (k : Int) :
    tblRemove t k = t.filter (fun e => decide (e.1 ≠ k)) := by
  induction t with
  | nil => rfl
  | cons e rest ih =>
    by_cases h : e.1 = k
    · rw [tblRemove, if_pos h, List.filter_cons]
      simp only [h, ne_eq, not_true_eq_false, decide_False, Bool.false_eq_true, if_false]
      exact ih
    · rw [tblRemove, if_neg h, List.filter_cons]
      simp only [ne_eq, h, not_false_eq_true, decide_True, if_true]
      rw [ih]

theorem tblFind?_none_key (t : InputTable) (k : Int) (h : tblFind? t k = none) :
    ∀ e ∈ t, e.1 ≠ k := by
  induction t with
  | nil => intro e he; cases he
  | cons f rest ih =>
    intro e he
    rw [tblFind?] at h
    by_cases hf : f.1 = k
    · rw [if_pos hf] at h; cases h
    · rw [if_neg hf] at h
      rcases List.mem_cons.mp he with rfl | he2
      · exact hf
      · exact ih h e he2

theorem tblFind?_nodup_mem (t : InputTable) (e : Int × InputInfo) (i : InputInfo)
    (hnd : (t.map Prod.fst).Nodup) (he : e ∈ t) (hf : tblFind? t e.1 = some i) :
    e.2 = i := by
  induction t with
  | nil => cases he
  | cons f rest ih =>
    rcases List.mem_cons.mp he with rfl | he2
    · rw [tblFind?, if_pos rfl] at hf
      exact (Option.some.injEq _ _ ▸ hf).symm ▸ rfl
    · have hne : f.1 ≠ e.1 := by
        intro hcontra
        have : e.1 ∈ rest.map Prod.fst := List.mem_map_of_mem Prod.fst he2
        rw [List.map_cons] at hnd
        exact (List.nodup_cons.mp hnd).1 (hcontra ▸ this)
      rw [tblFind?, if_neg hne] at hf
      exact ih ((List.nodup_cons.mp (List.map_cons Prod.fst f rest ▸ hnd)).2) he2 hf

theorem mem_tblRemove (t : InputTable) (k : Int) (e : Int × InputInfo)
    (he : e ∈ tblRemove t k) : e ∈ t := by
  rw [tblRemove_eq_filter] at he
  exact List.mem_of_mem_filter he

theorem nodup_tblRemove (t : InputTable) (k : Int)
    (hnd : (t.map Prod.fst).Nodup) : ((tblRemove t k).map Prod.fst).Nodup := by
  rw [tblRemove_eq_filter]
  exact List.Nodup.sublist (List.Sublist.map Prod.fst (List.filter_sublist t)) hnd

theorem int_emod_self_of_range (k : Int) (h0 : 0 ≤ k) (h1 : k < 256) :
    k.emod 256 = k :=
  Int.emod_eq_of_lt h0 h1

theorem clearAllLoop_table (now : Int) :
    ∀ (ks : List Int) (s : MuxerState),
      (s.activeInputs.map Prod.fst).Nodup →
      (∀ k ∈ ks, 0 ≤ k ∧ k < 256) →
      (∀ e ∈ s.activeInputs, expired now e.2 = false) →
      (clearAllLoop now ks s).1.activeInputs =
        s.activeInputs.filter (fun e => !(ks.contains e.1 && softClearCond e)) := by
  intro ks
  induction ks with
  | nil =>
    intro s _ _ _
    simp [clearAllLoop]
  | cons k ks ih =>
    intro s hnd hk hne
    have hk0 := (hk k (List.mem_cons_self k ks)).1
    have hk1 := (hk k (List.mem_cons_self k ks)).2
    have hks : ∀ j ∈ ks, 0 ≤ j ∧ j < 256 := fun j hj => hk j (List.mem_cons_of_mem k hj)
    unfold clearAllLoop
    cases hfk : tblFind? s.activeInputs k with
    | none =>
      have hkey : ∀ e ∈ s.activeInputs, e.1 ≠ k := tblFind?_none_key _ _ hfk
      have hstep : ∀ e ∈ s.activeInputs,
          (!((k :: ks).contains e.1 && softClearCond e)) =
          (!(ks.contains e.1 && softClearCond e)) := by
        intro e he
        have hne2 : e.1 ≠ k := hkey e he
        have : (k :: ks).contains e.1 = ks.contains e.1 := by
          simp [List.contains_cons, hne2]
        rw [this]
      have hclr : (clearInput s k now).1 = s := by
        unfold clearInput
        rw [if_neg ?hcond]
        case hcond =>
          rw [int_emod_self_of_range k hk0 hk1]
          simp [tblContains, hfk]
      by_cases hcc : ((decide ((getInputInfo s k).componentId = Components.COMP_COLOR) ||
          decide ((getInputInfo s k).componentId = Components.COMP_EFFECT)) &&
          decide (k < LOWEST_PRIORITY - 1)) = true
      · rw [if_pos hcc]
        simp only [hclr]
        rw [ih s hnd hks hne]
        exact (List.filter_congr hstep).symm
      · rw [if_neg hcc]
        rw [ih s hnd hks hne]
        exact (List.filter_congr hstep).symm
    | some i0 =>
      have hinfo : getInputInfo s k = i0 := by
        unfold getInputInfo
        rw [hfk]
      by_cases hcc : ((decide ((getInputInfo s k).componentId = Components.COMP_COLOR) ||
          decide ((getInputInfo s k).componentId = Components.COMP_EFFECT)) &&
          decide (k < LOWEST_PRIORITY - 1)) = true
      · -- the entry at k is cleared
        have hklt : k < LOWEST_PRIORITY - 1 := by
          rw [Bool.and_eq_true] at hcc
          exact of_decide_eq_true hcc.2
        have hcond : softClearCond (k, i0) = true := by
          unfold softClearCond
          rw [← hinfo]
          exact hcc
        have hclr : (clearInput s k now).1.activeInputs = tblRemove s.activeInputs k := by
          unfold clearInput
          rw [int_emod_self_of_range k hk0 hk1]
          rw [if_pos ?hcond2]
          case hcond2 =>
            simp only [Bool.and_eq_true, decide_eq_true_eq]
            refine ⟨by unfold LOWEST_PRIORITY at hklt ⊢; omega, ?_⟩
            simp [tblContains, hfk]
          apply setCurrentTime_table_id
          intro e he
          exact hne e (mem_tblRemove _ _ _ he)
        rw [if_pos hcc]
        have hnd2 : (((clearInput s k now).1.activeInputs).map Prod.fst).Nodup := by
          rw [hclr]; exact nodup_tblRemove _ _ hnd
        have hne2 : ∀ e ∈ (clearInput s k now).1.activeInputs, expired now e.2 = false := by
          rw [hclr]; exact fun e he => hne e (mem_tblRemove _ _ _ he)
        rw [ih _ hnd2 hks hne2, hclr, tblRemove_eq_filter, List.filter_filter]
        apply List.filter_congr
        intro e he
        by_cases hek : e.1 = k
        · have hei : e.2 = i0 := tblFind?_nodup_mem _ e i0 hnd he (by rw [hek]; exact hfk)
          have hsc : softClearCond e = true := by
            have : e = (e.1, e.2) := rfl
            rw [this, hek, hei]
            exact hcond
          simp [hek, hsc, List.contains_cons]
        · simp [hek, List.contains_cons]
      · -- the entry at k survives
        have hcond : softClearCond (k, i0) = false := by
          unfold softClearCond
          rw [← hinfo]
          simpa using hcc
        rw [if_neg hcc]
        rw [ih s hnd hks hne]
        apply List.filter_congr
        intro e he
        by_cases hek : e.1 = k
        · have hei : e.2 = i0 := tblFind?_nodup_mem _ e i0 hnd he (by rw [hek]; exact hfk)
          have hsc : softClearCond e = false := by
            have : e = (e.1, e.2) := rfl
            rw [this, hek, hei]
            exact hcond
          simp [hsc]
        · simp [List.contains_cons, hek]

def c8StateA : MuxerState := (registerInput (initState 1) 40 Components.COMP_GRABBER "g" "" 0).1

def c8StateB : MuxerState := (setInput c8StateA 40 [⟨9, 9, 9⟩] 5 0).1

def c8StateC : MuxerState := (registerInput c8StateB 80 Components.COMP_COLOR "ui" "" 0).1

def c8StateD : MuxerState := (setInput c8StateC 80 [⟨8, 8, 8⟩] (-1) 0).1

def c8StateE : MuxerState := (clearAll c8StateD false 100).1

/-- C8 counterexample: a GRABBER record at priority 40 with an expired
deadline and a persistent COLOR record at 80. `clear_all(false)` clears 80;
the synchronous sweep run by that nested `clear` also erases the expired
Grabber at 40, which the claim says must survive. -/
theorem c8_counterexample :
    (tblFind? c8StateD.activeInputs 40).map (fun i => i.componentId) =
      some Components.COMP_GRABBER ∧
    tblContains c8StateE.activeInputs 40 = false := by decide

/-- C8 (amended): when no record's positive deadline has expired at the
call time (and keys are the uint8 priorities they are registered under),
`clear_all(false)` removes exactly the records whose component is COLOR or
EFFECT and whose priority is below `LOWEST - 1` (254): the surviving table
is the original filtered to everything else. When some record has already
expired, the synchronous sweeps run by the nested clears may also remove
it — the counterexample's situation. -/
theorem c8_soft_clear (s : MuxerState) (now : Int)
    (hnd : (s.activeInputs.map Prod.fst).Nodup)
    (hk : ∀ e ∈ s.activeInputs, 0 ≤ e.1 ∧ e.1 < 256)
    (hne : ∀ e ∈ s.activeInputs, expired now e.2 = false) :
    (clearAll s false now).1.activeInputs =
      s.activeInputs.filter (fun e => !softClearCond e) := by
  unfold clearAll
  rw [if_neg (by simp)]
  rw [clearAllLoop_table now (tblKeys s.activeInputs) s hnd ?keysrange hne]
  case keysrange =>
    intro k hkk
    obtain ⟨e, he, rfl⟩ := List.mem_map.mp hkk
    exact hk e he
  apply List.filter_congr
  intro e he
  have hmem : (tblKeys s.activeInputs).contains e.1 = true := by
    have : e.1 ∈ tblKeys s.activeInputs := List.mem_map_of_mem Prod.fst he
    simpa using this
  rw [hmem]
  simp

def c8WitnessState : MuxerState :=
  (registerInput (registerInput (initState 1) 80 Components.COMP_COLOR "u" "" 0).1
    40 Components.COMP_GRABBER "g" "" 0).1

/-- C8 amended-claim witness: a table with a GRABBER at 40 and a COLOR at
80, nothing expired — the soft clear-all removes exactly the COLOR entry. -/
theorem c8_soft_clear_witness :
    (clearAll c8WitnessState false 0).1.activeInputs =
      c8WitnessState.activeInputs.filter (fun e => !softClearCond e) :=
  c8_soft_clear c8WitnessState 0 (by decide) (by decide) (by decide)

/-! ## Claim C9 -/

theorem noRemovalAfterVisible_append (l m : List Event)
    (h : ∀ e ∈ l, isVisibleEvent e = false) :
    noRemovalAfterVisible (l ++ m) = noRemovalAfterVisible m := by
  induction l with
  | nil => rfl
  | cons e rest ih =>
    rw [List.cons_append, noRemovalAfterVisible,
      if_neg (by rw [h e (List.mem_cons_self e rest)]; exact Bool.false_ne_true)]
    exact ih (fun x hx => h x (List.mem_cons_of_mem e hx))

def c9StateA : MuxerState := (registerInput (initState 1) 10 Components.COMP_COLOR "ui" "" 0).1

def c9StateB : MuxerState := (setInput c9StateA 10 [⟨7, 7, 7⟩] (-1) 0).1

/-- C9 counterexample: with source 10 visible, `clear(10)` removes the
record, runs the synchronous sweep — which emits
`visible_priority_changed(255)` — and only then emits
`priority_changed(10, false)`: the visible-priority event precedes the
removal event in the call's trace, which the claim forbids. -/
theorem c9_counterexample :
    (clearInput c9StateB 10 0).2.1 =
      [Event.visiblePriorityChanged 255, Event.prioritiesChanged,
       Event.priorityChanged 10 false, Event.prioritiesChanged] ∧
    noRemovalAfterVisible (clearInput c9StateB 10 0).2.1 = false := by decide

/-- C9 (amended): within a single sweep (`setCurrentTime`) the ordering
holds: every `priority_changed(p, false)` emitted for an expired record
precedes any `visible_priority_changed` of that sweep — the visible-priority
notification is emitted last, after the state is fully updated. For a
`clear(p)` call the order is the other way around (the counterexample):
the nested re-evaluation emits its `visible_priority_changed` before
`priority_changed(p, false)`. -/
theorem c9_sweep_ordering (s : MuxerState) (now : Int) :
    noRemovalAfterVisible (setCurrentTime s now).2 = true := by
  rw [show (setCurrentTime s now).2 =
      ((sweepLoop now s.activeInputs (sweepInit s)).2.2
       ++ (if !s.sourceAutoSelectEnabled &&
             !tblContains (sweepLoop now s.activeInputs (sweepInit s)).1 s.manualSelectedPriority
           then [Event.autoSelectChanged true] else ([] : List Event)))
      ++ (if s.currentPriority ≠ sweepNewPriority s now
          then [Event.visiblePriorityChanged (sweepNewPriority s now), Event.prioritiesChanged]
          else ([] : List Event)) from rfl]
  rw [noRemovalAfterVisible_append _ _ ?hl]
  case hl =>
    intro e hee
    rcases List.mem_append.mp hee with h1 | h2
    · exact sweepLoop_no_visible now s.activeInputs (sweepInit s) e h1
    · split at h2
      · simp only [List.mem_singleton] at h2
        subst h2
        rfl
      · cases h2
  split
  · rfl
  · rfl

/-! ## Claim C10 -/

/-- C10: for a registered priority, `set_color_input` rewrites only
`timeout_time_ms` and `led_colors` of the record, and a following
`set_image_input` rewrites only `timeout_time_ms` and `image`: metadata is
untouched and after interleaving the two calls the record carries both
payloads. -/
theorem c10_payload_isolation (s : MuxerState) (p : Int) (colors : List ColorRgb)
    (img : ImageRgb) (tc ti now1 now2 : Int) (i : InputInfo)
    (hf : tblFind? s.activeInputs p = some i) :
    (setInput s p colors tc now1).2.2 = true ∧
    tblFind? (setInput s p colors tc now1).1.activeInputs p =
      some { i with timeoutTime_ms := calcTimeout tc now1, ledColors := colors } ∧
    (setInputImage (setInput s p colors tc now1).1 p img ti now2).2.2 = true ∧
    tblFind? (setInputImage (setInput s p colors tc now1).1 p img ti now2).1.activeInputs p =
      some { i with timeoutTime_ms := calcTimeout ti now2, ledColors := colors,
                    image := img } := by
  have h1 : (setInput s p colors tc now1).2.2 = true ∧
      tblFind? (setInput s p colors tc now1).1.activeInputs p =
        some { i with timeoutTime_ms := calcTimeout tc now1, ledColors := colors } := by
    unfold setInput
    simp only [hf]
    by_cases hac : activeChangeFlag i.timeoutTime_ms (calcTimeout tc now1) = true
    · simp only [hac, if_true]
      exact ⟨by trivial, setCurrentTime_find _ now1 p _ (tblFind?_insert_self _ _ _)
        (expired_calcTimeout now1 tc _ rfl)⟩
    · simp only [hac, Bool.false_eq_true, if_false]
      exact ⟨by trivial, tblFind?_insert_self _ _ _⟩
  have h2 : (setInputImage (setInput s p colors tc now1).1 p img ti now2).2.2 = true ∧
      tblFind? (setInputImage (setInput s p colors tc now1).1 p img ti now2).1.activeInputs p =
        some { i with timeoutTime_ms := calcTimeout ti now2, ledColors := colors,
                      image := img } := by
    unfold setInputImage
    simp only [h1.2]
    by_cases hac : activeChangeFlag
        ({ i with timeoutTime_ms := calcTimeout tc now1,
                  ledColors := colors } : InputInfo).timeoutTime_ms (calcTimeout ti now2) = true
    · simp only [hac, if_true]
      exact ⟨by trivial, setCurrentTime_find _ now2 p _ (tblFind?_insert_self _ _ _)
        (expired_calcTimeout now2 ti _ rfl)⟩
    · simp only [hac, Bool.false_eq_true, if_false]
      exact ⟨by trivial, tblFind?_insert_self _ _ _⟩
  exact ⟨h1.1, h1.2, h2.1, h2.2⟩

def c10WitnessState : MuxerState :=
  (registerInput (initState 1) 100 Components.COMP_EFFECT "fx" "rainbow" 7).1

/-- C10 witness: interleave a color write and an image write on the
registered priority 100 — the final record keeps both payloads and the
registration metadata. -/
theorem c10_payload_isolation_witness :
    (setInput c10WitnessState 100 [⟨5, 5, 5⟩] (-1) 0).2.2 = true ∧
    tblFind? (setInput c10WitnessState 100 [⟨5, 5, 5⟩] (-1) 0).1.activeInputs 100 =
      some { priority := 100, timeoutTime_ms := calcTimeout (-1) 0,
             componentId := Components.COMP_EFFECT, origin := "fx", owner := "rainbow",
             smooth_cfg := 7, ledColors := [⟨5, 5, 5⟩], image := default } ∧
    (setInputImage (setInput c10WitnessState 100 [⟨5, 5, 5⟩] (-1) 0).1 100 ⟨4, 3⟩ (-1) 5).2.2 = true ∧
    tblFind? (setInputImage (setInput c10WitnessState 100 [⟨5, 5, 5⟩] (-1) 0).1
        100 ⟨4, 3⟩ (-1) 5).1.activeInputs 100 =
      some { priority := 100, timeoutTime_ms := calcTimeout (-1) 5,
             componentId := Components.COMP_EFFECT, origin := "fx", owner := "rainbow",
             smooth_cfg := 7, ledColors := [⟨5, 5, 5⟩], image := ⟨4, 3⟩ } :=
  c10_payload_isolation c10WitnessState 100 [⟨5, 5, 5⟩] ⟨4, 3⟩ (-1) (-1) 0 5
    { priority := 100, timeoutTime_ms := -100, componentId := Components.COMP_EFFECT,
      origin := "fx", owner := "rainbow", smooth_cfg := 7, ledColors := [], image := default }
    (by decide)
